import Mathlib

/-!
Shallow embedding of `src/main.py`, a CLI pipeline that loads customer
records from CSV, filters them by optional `country` / `min_age` criteria,
and writes the result as JSON.  The verified core is `filter_customers`
together with the status-line reporting of `process_command`; file I/O is
out of scope.

Records are modelled as association lists from field name to text value
(what `csv.DictReader` produces).  Python's `None`-able arguments become
`Option`; Python truthiness of strings and integers is modelled explicitly;
`int(...)` on a string becomes a partial parse, and the `ValueError` it can
raise is modelled with `Except`.
-/

/-- A customer record: a field-name → text-value mapping, as decoded from a
CSV row by `csv.DictReader`.  Keys are unique in the Python dict; lookup
takes the first binding. -/
abbrev Record := List (String × String)

/-- Python dict access `c.get(k)`: the value at key `k`, or `None`. -/
def getField (c : Record) (k : String) : Option String :=
  List.lookup k c

/-- Python truthiness of an `Optional[str]`: `None` and the empty string are
falsy, every other string is truthy (`if country:` in the source). -/
def pyTruthyStr : Option String → Bool
  | none => false
  | some s => s ≠ ""

/-- Python truthiness of an `Optional[int]`: `None` and `0` are falsy
(`if args.min_age:` in `process_command`). -/
def pyTruthyInt : Option Int → Bool
  | none => false
  | some n => n ≠ 0

/-- The exception the embedded code can raise: `ValueError` from `int(...)`
on a string that does not parse as an integer. -/
inductive PyError
  | valueError
deriving DecidableEq

/-- Strip leading and trailing whitespace characters, as Python `int(str)`
does before parsing. -/
def stripWs (l : List Char) : List Char :=
  ((l.dropWhile Char.isWhitespace).reverse.dropWhile Char.isWhitespace).reverse

/-- A nonempty all-digit character list to its value, `none` otherwise. -/
def digitsToNat (l : List Char) : Option Nat :=
  if !l.isEmpty && l.all Char.isDigit then
    some (l.foldl (fun acc ch => acc * 10 + (ch.toNat - 48)) 0)
  else
    none

/-- Python `int(s)` for a string `s`: surrounding whitespace is stripped,
then an optional sign followed by decimal digits is accepted; anything else
raises `ValueError` (here: `none`).  Underscore digit separators and
non-ASCII digits, which CPython also accepts, are not modelled; no claim
depends on them. -/
def pyInt (s : String) : Option Int :=
  match stripWs s.toList with
  | '-' :: rest => (digitsToNat rest).map (fun n => -(n : Int))
  | '+' :: rest => (digitsToNat rest).map (fun n => (n : Int))
  | l => (digitsToNat l).map (fun n => (n : Int))

/-- The country predicate of the comprehension
`[c for c in filtered if c.get('country') == country]`: Python compares the
looked-up value (or `None`) with the supplied `country` string. -/
def countryMatch (country : Option String) (c : Record) : Bool :=
  getField c "country" == country

/-- The `if country:` stage of `filter_customers`: when `country` is truthy,
keep the records whose `country` field equals it; otherwise pass through. -/
def countryStage (country : Option String) (customers : List Record) :
    List Record :=
  if pyTruthyStr country then customers.filter (countryMatch country)
  else customers

/-- The body of the min-age comprehension,
`c.get('age') and int(c.get('age')) >= min_age`: a missing or empty `age`
field is falsy and short-circuits to exclusion; otherwise `int(...)` is
applied and can raise `ValueError`. -/
def agePasses (min_age : Int) (c : Record) : Except PyError Bool :=
  match getField c "age" with
  | none => .ok false
  | some s =>
      if s = "" then .ok false
      else
        match pyInt s with
        | none => .error .valueError
        | some n => .ok (decide (n ≥ min_age))

/-- A Python list comprehension `[x for x in xs if p(x)]` whose predicate
can raise: elements are tested left to right and the first raise aborts the
whole comprehension. -/
def exceptFilter (p : α → Except ε Bool) : List α → Except ε (List α)
  | [] => .ok []
  | x :: xs => do
      let b ← p x
      let rest ← exceptFilter p xs
      pure (if b then x :: rest else rest)

/-- The function `filter_customers(customers, country, min_age)` from
`src/main.py`:
the country comprehension runs first (skipped when `country` is falsy),
then, when `min_age is not None`, the age comprehension runs over its
output and can raise `ValueError`. -/
def filter_customers (customers : List Record) (country : Option String)
    (min_age : Option Int) : Except PyError (List Record) :=
  let filtered := countryStage country customers
  match min_age with
  | none => .ok filtered
  | some m => exceptFilter (agePasses m) filtered

/-- The `filters` list built by `process_command` for the status line:
`country=<value>` when `args.country` is truthy, then `min_age=<value>`
when `args.min_age` is truthy. -/
def filtersList (country : Option String) (min_age : Option Int) :
    List String :=
  (if pyTruthyStr country then ["country=" ++ country.getD ""] else []) ++
  (if pyTruthyInt min_age then ["min_age=" ++ toString (min_age.getD 0)]
   else [])

/-- The parenthesized filter description appended to the count line:
`" (" + ", ".join(filters) + ")"` when `filters` is nonempty, else
nothing. -/
def statusSuffix (country : Option String) (min_age : Option Int) : String :=
  let filters := filtersList country min_age
  if filters.isEmpty then ""
  else " (" ++ String.intercalate ", " filters ++ ")"

/-- The full `Filtered to N customers ...` status line printed by
`process_command`. -/
def statusLine (retained : Nat) (country : Option String)
    (min_age : Option Int) : String :=
  "Filtered to " ++ toString retained ++ " customers" ++
    statusSuffix country min_age

/-- Order-preserving intersection: the elements of `A`, in order, that also
occur in `B`. -/
def interPO (A B : List Record) : List Record :=
  A.filter (fun a => decide (a ∈ B))

/-- The value-level boolean outcome of a possibly-raising predicate:
`true` exactly when the predicate returns `ok true`. -/
def okTrue (p : α → Except ε Bool) (x : α) : Bool :=
  match p x with
  | .ok true => true
  | _ => false

/-- Whether the country stage keeps record `c`: vacuously when the criterion
is falsy, otherwise exactly when the `country` field matches. -/
def countryKeep (country : Option String) (c : Record) : Bool :=
  !pyTruthyStr country || countryMatch country c

/-! ## Basic lemmas about `exceptFilter` and `countryStage` -/

theorem exceptFilter_ok_eq {p : α → Except ε Bool} :
    ∀ {xs l : List α}, exceptFilter p xs = .ok l → l = xs.filter (okTrue p)
  | [], l, h => by
      simp only [exceptFilter] at h
      cases h
      rfl
  | x :: xs, l, h => by
      simp only [exceptFilter, bind, Except.bind] at h
      cases hpx : p x with
      | error e => rw [hpx] at h; exact absurd h (by simp)
      | ok b =>
        rw [hpx] at h
        cases hrec : exceptFilter p xs with
        | error e => rw [hrec] at h; exact absurd h (by simp)
        | ok rest =>
          rw [hrec] at h
          simp only [pure, Except.pure, Except.ok.injEq] at h
          subst h
          have ih := exceptFilter_ok_eq hrec
          subst ih
          cases b with
          | true => simp [List.filter, okTrue, hpx]
          | false => simp [List.filter, okTrue, hpx]

theorem exceptFilter_ok_isOk {p : α → Except ε Bool} :
    ∀ {xs l : List α}, exceptFilter p xs = .ok l →
      ∀ x ∈ xs, (p x).isOk
  | [], _, _ => by intro x hx; cases hx
  | x :: xs, l, h => by
      intro y hy
      simp only [exceptFilter, bind, Except.bind] at h
      cases hpx : p x with
      | error e => rw [hpx] at h; exact absurd h (by simp)
      | ok b =>
        rw [hpx] at h
        cases hrec : exceptFilter p xs with
        | error e => rw [hrec] at h; exact absurd h (by simp)
        | ok rest =>
          cases List.mem_cons.mp hy with
          | inl hyx => subst hyx; simp [hpx, Except.isOk, Except.toBool]
          | inr hyxs => exact exceptFilter_ok_isOk hrec y hyxs

theorem exceptFilter_of_isOk {p : α → Except ε Bool} :
    ∀ {xs : List α}, (∀ x ∈ xs, (p x).isOk) →
      exceptFilter p xs = .ok (xs.filter (okTrue p))
  | [], _ => rfl
  | x :: xs, h => by
      have hx : (p x).isOk := h x (List.mem_cons_self x xs)
      have hxs : ∀ y ∈ xs, (p y).isOk :=
        fun y hy => h y (List.mem_cons_of_mem x hy)
      cases hpx : p x with
      | error e => rw [hpx] at hx; simp [Except.isOk, Except.toBool] at hx
      | ok b =>
        simp only [exceptFilter, bind, Except.bind, hpx,
          exceptFilter_of_isOk hxs, pure, Except.pure]
        cases b with
        | true => simp [List.filter, okTrue, hpx]
        | false => simp [List.filter, okTrue, hpx]

theorem okTrue_agePasses {m : Int} {c : Record} :
    okTrue (agePasses m) c = true ↔ agePasses m c = .ok true := by
  unfold okTrue
  cases h : agePasses m c with
  | error e => simp
  | ok b => cases b <;> simp

theorem countryStage_sublist (country : Option String) (R : List Record) :
    (countryStage country R).Sublist R := by
  unfold countryStage
  split
  · exact List.filter_sublist R
  · exact List.Sublist.refl R

theorem mem_countryStage {country : Option String} {R : List Record}
    {a : Record} (h : a ∈ countryStage country R) :
    a ∈ R ∧ (pyTruthyStr country = true → countryMatch country a = true) := by
  unfold countryStage at h
  by_cases ht : pyTruthyStr country = true
  · rw [if_pos ht] at h
    exact ⟨(List.mem_filter.mp h).1, fun _ => (List.mem_filter.mp h).2⟩
  · rw [if_neg ht] at h
    exact ⟨h, fun hc => absurd hc ht⟩

theorem countryStage_eq_self {country : Option String} {L : List Record}
    (h : ∀ a ∈ L, pyTruthyStr country = true → countryMatch country a = true) :
    countryStage country L = L := by
  unfold countryStage
  by_cases ht : pyTruthyStr country = true
  · rw [if_pos ht]
    exact List.filter_eq_self.mpr (fun a ha => h a ha ht)
  · rw [if_neg ht]

/-! ## Claim theorems -/

/-- C5: with neither criterion active, `filter_customers` is the identity:
the input sequence is returned exactly, order and multiplicity preserved. -/
theorem filter_customers_identity (R : List Record) :
    filter_customers R none none = .ok R := rfl

/-- C10: with `country` equal to the empty string and `min_age` absent,
`filter_customers` returns the input unchanged: `if country:` is false for
the empty string, so the country predicate is skipped entirely rather than
matched against. -/
theorem filter_customers_empty_country_identity (R : List Record) :
    filter_customers R (some "") none = .ok R := rfl

/-- C1: contrary to the spec's silent fail-closed policy, a record whose
`age` field is non-numeric makes `filter_customers` raise `ValueError`
(`int('thirty')` inside the comprehension is unguarded); only a missing or
empty `age` is silently excluded. -/
theorem filter_customers_raises_on_nonnumeric_age :
    filter_customers [[("age", "thirty")]] none (some 21) =
      .error PyError.valueError ∧
    filter_customers [[("name", "x")]] none (some 21) = .ok [] ∧
    filter_customers [[("age", "")]] none (some 21) = .ok [] :=
  ⟨rfl, rfl, rfl⟩

/-- C7: `min_age = 0` is an active criterion (a record with a valid age `0`
passes, a record missing the field is excluded), but a record with a
non-numeric age makes the filter raise `ValueError` instead of being
silently excluded as the claim states. -/
theorem min_age_zero_active_but_raises_on_invalid :
    filter_customers [[("age", "0")]] none (some 0) = .ok [[("age", "0")]] ∧
    filter_customers [[("name", "x")]] none (some 0) = .ok [] ∧
    filter_customers [[("age", "thirty")]] none (some 0) =
      .error PyError.valueError :=
  ⟨rfl, rfl, rfl⟩

/-- C3 counterexample: with `country` supplied as the empty string, a record
whose `country` field is `"USA"` (not the empty string) is retained, so the
empty string is not matched against as the claim states — it deactivates
the criterion. -/
theorem country_empty_matches_all_cex :
    filter_customers [[("country", "USA")]] (some "") none =
      .ok [[("country", "USA")]] ∧
    getField [("country", "USA")] "country" ≠ some "" :=
  ⟨rfl, by decide⟩

/-- C3 amended: for a non-empty `country`, exactly the records whose
`country` field equals it (case-sensitive, no normalization) are retained
in order; a record missing the field never matches. -/
theorem filter_customers_country_nonempty_exact (R : List Record)
    (s : String) (c : Record) (h : s ≠ "") :
    filter_customers R (some s) none =
      .ok (R.filter (countryMatch (some s))) ∧
    (getField c "country" = none → countryMatch (some s) c = false) := by
  constructor
  · unfold filter_customers countryStage
    have ht : pyTruthyStr (some s) = true := by
      simp [pyTruthyStr, h]
    rw [if_pos ht]
  · intro hc
    simp [countryMatch, hc]

/-- Closed instance of `filter_customers_country_nonempty_exact` at
`s = "USA"` over a two-record list, discharging `s ≠ ""`. -/
theorem filter_customers_country_nonempty_exact_witness :
    filter_customers [[("country", "USA")], [("country", "Canada")]]
        (some "USA") none =
      .ok ([[("country", "USA")], [("country", "Canada")]].filter
        (countryMatch (some "USA"))) ∧
    (getField [("name", "x")] "country" = none →
      countryMatch (some "USA") [("name", "x")] = false) :=
  filter_customers_country_nonempty_exact
    [[("country", "USA")], [("country", "Canada")]] "USA" [("name", "x")]
    (by decide)

/-- C8 counterexample: a record whose `age` field is `" 25 "` is retained
(not excluded) under `min_age = 21`: Python `int` strips surrounding
whitespace, so the parse succeeds. -/
theorem whitespace_age_retained_cex :
    filter_customers [[("age", " 25 ")]] none (some 21) =
      .ok [[("age", " 25 ")]] := rfl

theorem countryStage_singleton (country : Option String) (c : Record) :
    countryStage country [c] = if countryKeep country c then [c] else [] := by
  unfold countryStage countryKeep
  by_cases ht : pyTruthyStr country = true
  · rw [if_pos ht, ht]
    simp only [Bool.not_true, Bool.false_or]
    by_cases hm : countryMatch country c = true
    · simp [List.filter, hm]
    · simp [List.filter, hm]
  · have ht' : pyTruthyStr country = false := by
      revert ht; cases pyTruthyStr country <;> simp
    rw [if_neg ht, ht']
    simp

theorem stringAppend_assoc (a b c : String) : a ++ b ++ c = a ++ (b ++ c) := by
  cases a with
  | mk la =>
    cases b with
    | mk lb =>
      cases c with
      | mk lc =>
        show String.mk (la ++ lb ++ lc) = String.mk (la ++ (lb ++ lc))
        rw [List.append_assoc]

/-- C2: whatever criteria are supplied, whenever `filter_customers` returns
a result it is a subsequence of the input: every retained record occurs in
the input at the same relative position, nothing added, duplicated or
modified. -/
theorem filter_customers_sublist (R : List Record) (country : Option String)
    (min_age : Option Int) (l : List Record)
    (h : filter_customers R country min_age = .ok l) : l.Sublist R := by
  cases min_age with
  | none =>
      have h' : (Except.ok (countryStage country R) : Except PyError (List Record)) = .ok l := h
      cases h'
      exact countryStage_sublist country R
  | some m =>
      have h' : exceptFilter (agePasses m) (countryStage country R) = .ok l := h
      have hl := exceptFilter_ok_eq h'
      subst hl
      exact (List.filter_sublist _).trans (countryStage_sublist country R)

/-- Closed instance of `filter_customers_sublist` with the country criterion
active over a two-record list. -/
theorem filter_customers_sublist_witness :
    List.Sublist ([[("country", "USA")]] : List Record)
      [[("country", "USA")], [("country", "Canada")]] :=
  filter_customers_sublist [[("country", "USA")], [("country", "Canada")]]
    (some "USA") none [[("country", "USA")]] rfl

/-- C6: filtering is idempotent: if `filter_customers` returns `l`, running
it again on `l` with the same criteria returns `l` unchanged. -/
theorem filter_customers_idem (R : List Record) (country : Option String)
    (min_age : Option Int) (l : List Record)
    (h : filter_customers R country min_age = .ok l) :
    filter_customers l country min_age = .ok l := by
  cases min_age with
  | none =>
      have h' : (Except.ok (countryStage country R) : Except PyError (List Record)) = .ok l := h
      cases h'
      show Except.ok (countryStage country (countryStage country R)) = _
      rw [countryStage_eq_self (fun a ha ht => (mem_countryStage ha).2 ht)]
  | some m =>
      have h' : exceptFilter (agePasses m) (countryStage country R) = .ok l := h
      have hl := exceptFilter_ok_eq h'
      have hmemCS : ∀ a ∈ l, a ∈ countryStage country R := by
        intro a ha; rw [hl] at ha; exact (List.mem_filter.mp ha).1
      have hcs : countryStage country l = l :=
        countryStage_eq_self
          (fun a ha ht => (mem_countryStage (hmemCS a ha)).2 ht)
      have hok : ∀ a ∈ l, okTrue (agePasses m) a = true := by
        intro a ha; rw [hl] at ha; exact (List.mem_filter.mp ha).2
      have hisok : ∀ a ∈ l, (agePasses m a).isOk := by
        intro a ha
        rw [okTrue_agePasses.mp (hok a ha)]
        rfl
      show exceptFilter (agePasses m) (countryStage country l) = .ok l
      rw [hcs, exceptFilter_of_isOk hisok]
      exact congrArg Except.ok (List.filter_eq_self.mpr hok)

/-- Closed instance of `filter_customers_idem` with both criteria active. -/
theorem filter_customers_idem_witness :
    filter_customers [[("country", "USA"), ("age", "25")]] (some "USA")
        (some 21) =
      .ok [[("country", "USA"), ("age", "25")]] :=
  filter_customers_idem
    [[("country", "USA"), ("age", "25")], [("country", "USA"), ("age", "18")]]
    (some "USA") (some 21) [[("country", "USA"), ("age", "25")]] rfl

/-- C4: the two criteria combine conjunctively: when both single-criterion
runs return results `A` and `B`, the combined run returns exactly the
order-preserving intersection of `A` and `B`. -/
theorem filter_customers_conjunctive (R : List Record) (x : String) (y : Int)
    (A B : List Record)
    (hA : filter_customers R (some x) none = .ok A)
    (hB : filter_customers R none (some y) = .ok B) :
    filter_customers R (some x) (some y) = .ok (interPO A B) := by
  have hA' : countryStage (some x) R = A := by
    have h' : (Except.ok (countryStage (some x) R) : Except PyError (List Record)) = .ok A := hA
    cases h'; rfl
  have hB' : exceptFilter (agePasses y) R = .ok B := hB
  have hBl := exceptFilter_ok_eq hB'
  have hBok := exceptFilter_ok_isOk hB'
  have hsub : ∀ a ∈ countryStage (some x) R, a ∈ R :=
    fun a ha => (mem_countryStage ha).1
  have hok : ∀ a ∈ countryStage (some x) R, (agePasses y a).isOk :=
    fun a ha => hBok a (hsub a ha)
  show exceptFilter (agePasses y) (countryStage (some x) R) = .ok (interPO A B)
  rw [exceptFilter_of_isOk hok]
  refine congrArg Except.ok ?_
  rw [← hA']
  unfold interPO
  refine List.filter_congr ?_
  intro a ha
  have haR : a ∈ R := hsub a ha
  rw [hBl]
  by_cases hb : okTrue (agePasses y) a = true
  · simp [List.mem_filter, haR, hb]
  · simp only [Bool.not_eq_true] at hb
    simp [List.mem_filter, haR, hb]

/-- Closed instance of `filter_customers_conjunctive` over three records
with `country = "USA"`, `min_age = 21`. -/
theorem filter_customers_conjunctive_witness :
    filter_customers
        [[("country", "USA"), ("age", "25")],
         [("country", "Canada"), ("age", "30")],
         [("country", "USA"), ("age", "18")]] (some "USA") (some 21) =
      .ok (interPO
        [[("country", "USA"), ("age", "25")], [("country", "USA"), ("age", "18")]]
        [[("country", "USA"), ("age", "25")], [("country", "Canada"), ("age", "30")]]) :=
  filter_customers_conjunctive
    [[("country", "USA"), ("age", "25")],
     [("country", "Canada"), ("age", "30")],
     [("country", "USA"), ("age", "18")]] "USA" 21
    [[("country", "USA"), ("age", "25")], [("country", "USA"), ("age", "18")]]
    [[("country", "USA"), ("age", "25")], [("country", "Canada"), ("age", "30")]]
    rfl rfl

/-- C8 amended: a record whose `age` field is `" 25 "` never makes the
filter raise: the surrounding whitespace is stripped by integer parsing, and
the record is retained exactly when the country stage keeps it and
`25 >= min_age`; the age parse affects only the min-age predicate, the
country predicate's verdict `countryKeep` is evaluated independently. -/
theorem filter_customers_whitespace_age (m : Int) (country : Option String)
    (c : Record) (h : getField c "age" = some " 25 ") :
    filter_customers [c] country (some m) =
      .ok (if countryKeep country c && decide ((25 : Int) ≥ m) then [c]
           else []) := by
  have hage : agePasses m c = .ok (decide ((25 : Int) ≥ m)) := by
    unfold agePasses
    rw [h]
    have h25 : pyInt " 25 " = some 25 := rfl
    simp [h25]
  show exceptFilter (agePasses m) (countryStage country [c]) = _
  rw [countryStage_singleton]
  by_cases hk : countryKeep country c = true
  · rw [if_pos hk, hk]
    simp only [Bool.true_and]
    cases hd : decide ((25 : Int) ≥ m) with
    | true =>
        rw [hd] at hage
        simp [exceptFilter, hage, bind, Except.bind, pure, Except.pure]
    | false =>
        rw [hd] at hage
        simp [exceptFilter, hage, bind, Except.bind, pure, Except.pure]
  · have hk' : countryKeep country c = false := by
      revert hk; cases countryKeep country c <;> simp
    rw [if_neg hk, hk']
    simp [exceptFilter]

/-- Closed instance of `filter_customers_whitespace_age` with both criteria
active on a record whose `age` is `" 25 "`. -/
theorem filter_customers_whitespace_age_witness :
    filter_customers [[("age", " 25 "), ("country", "USA")]] (some "USA")
        (some 21) =
      .ok (if countryKeep (some "USA") [("age", " 25 "), ("country", "USA")]
              && decide ((25 : Int) ≥ 21)
           then [[("age", " 25 "), ("country", "USA")]] else []) :=
  filter_customers_whitespace_age 21 (some "USA")
    [("age", " 25 "), ("country", "USA")] rfl

/-- C9 counterexample: with `min_age = 0` as the only criterion, the status
line carries no filter description (`if args.min_age:` is false at `0`),
even though the criterion is active in the filter itself: a record without
an `age` field is excluded. -/
theorem min_age_zero_not_reported_cex :
    statusSuffix none (some 0) = "" ∧
    statusLine 1 none (some 0) = "Filtered to 1 customers" ∧
    filter_customers [[("name", "x")]] none (some 0) = .ok [] :=
  ⟨rfl, rfl, rfl⟩

/-- C9 amended: the filter description (`country=<value>`, `min_age=<value>`
joined by `", "`) is appended to the count line whenever at least one
criterion is truthy — `country` non-empty, or `min_age` a nonzero integer —
in every combination: both truthy, country alone (with `min_age` absent or
`0`), and `min_age` alone (with `country` absent or empty); while
`min_age = 0` as the only supplied criterion yields a bare count line. -/
theorem statusLine_description (x : String) (n : Int) (retained : Nat)
    (hx : x ≠ "") (hn : n ≠ 0) :
    statusLine retained (some x) (some n) =
      "Filtered to " ++ toString retained ++ " customers" ++ " (" ++
        "country=" ++ x ++ ", " ++ "min_age=" ++ toString n ++ ")" ∧
    statusLine retained (some x) none =
      "Filtered to " ++ toString retained ++ " customers" ++ " (" ++
        "country=" ++ x ++ ")" ∧
    statusLine retained (some x) (some 0) =
      "Filtered to " ++ toString retained ++ " customers" ++ " (" ++
        "country=" ++ x ++ ")" ∧
    statusLine retained none (some n) =
      "Filtered to " ++ toString retained ++ " customers" ++ " (" ++
        "min_age=" ++ toString n ++ ")" ∧
    statusLine retained (some "") (some n) =
      "Filtered to " ++ toString retained ++ " customers" ++ " (" ++
        "min_age=" ++ toString n ++ ")" ∧
    statusSuffix none (some 0) = "" := by
  have htx : pyTruthyStr (some x) = true := by simp [pyTruthyStr, hx]
  have htn : pyTruthyInt (some n) = true := by simp [pyTruthyInt, hn]
  have htse : pyTruthyStr (some "") = false := rfl
  have htsnone : pyTruthyStr (none : Option String) = false := rfl
  have ht0 : pyTruthyInt (some 0) = false := rfl
  have htnnone : pyTruthyInt (none : Option Int) = false := rfl
  have hI2 : ∀ a b : String, String.intercalate ", " [a, b] = a ++ ", " ++ b :=
    fun _ _ => rfl
  have hI1 : ∀ a : String, String.intercalate ", " [a] = a := fun _ => rfl
  refine ⟨?_, ?_, ?_, ?_, ?_, rfl⟩ <;>
    simp only [statusLine, statusSuffix, filtersList, htx, htn, htse, htsnone,
      ht0, htnnone, if_pos, Option.getD_some, List.append_nil,
      List.nil_append, List.singleton_append, hI1, hI2, List.isEmpty_cons,
      Bool.false_eq_true, if_false, stringAppend_assoc]

/-- Closed instance of `statusLine_description` at `country = "USA"`,
`min_age = 21`, two retained records. -/
theorem statusLine_description_witness :
    statusLine 2 (some "USA") (some 21) =
      "Filtered to " ++ toString 2 ++ " customers" ++ " (" ++
        "country=" ++ "USA" ++ ", " ++ "min_age=" ++ toString (21 : Int) ++
        ")" ∧
    statusLine 2 (some "USA") none =
      "Filtered to " ++ toString 2 ++ " customers" ++ " (" ++
        "country=" ++ "USA" ++ ")" ∧
    statusLine 2 (some "USA") (some 0) =
      "Filtered to " ++ toString 2 ++ " customers" ++ " (" ++
        "country=" ++ "USA" ++ ")" ∧
    statusLine 2 none (some 21) =
      "Filtered to " ++ toString 2 ++ " customers" ++ " (" ++
        "min_age=" ++ toString (21 : Int) ++ ")" ∧
    statusLine 2 (some "") (some 21) =
      "Filtered to " ++ toString 2 ++ " customers" ++ " (" ++
        "min_age=" ++ toString (21 : Int) ++ ")" ∧
    statusSuffix none (some 0) = "" :=
  statusLine_description "USA" 21 2 (by decide) (by decide)
